import Mathlib

/-!
Verification development for the MeterMate repository (a Home Assistant
custom integration for manual utility-meter readings).

The repository snapshot contains the frontend JavaScript
(`custom_components/metermate/frontend/api.js`, `ha-metermate-panel.js`,
`meter-selection.js`, panel loaders) together with the product and design
documents.  The backend Python component (data manager, conversion engine,
service layer) is not part of the snapshot; where a property is decided by
that backend, the corresponding operation is modelled from the spec and its
definition is marked `Modelled from the spec:`.

Modelling conventions:
- JavaScript numbers from `parseFloat` are modelled by `JSNum`
  (NaN, plus/minus infinity, or a finite rational).
- Instants (JS `Date` values, epoch milliseconds) are modelled by `Int`.
- JS falsiness of strings (empty string is falsy) is modelled by `jsOr`;
  absent/empty datetime-local fields are modelled by `Option Int`.
- `Array.prototype.sort` with a comparator (a stable sort) is modelled by
  the stable insertion sort `sortLe`.
- `hass.states` is a map from entity id to state; in Home Assistant a state
  object's `entity_id` always equals its key, so the key stands for both.
-/

/-- Stable insertion of `a` into `l`: `a` goes in front of the first element
`b` with `le a b`.  Models one step of a stable comparator sort. -/
def insertLe (le : α → α → Bool) (a : α) : List α → List α
  | [] => [a]
  | b :: l => if le a b then a :: b :: l else b :: insertLe le a l

/-- Stable insertion sort by a boolean comparator; models the behaviour of
JavaScript `Array.prototype.sort` with a total comparator (sorted output,
same multiset of elements, stable). -/
def sortLe (le : α → α → Bool) : List α → List α
  | [] => []
  | a :: l => insertLe le a (sortLe le l)

/-- Character-list version of string prefix testing. -/
def charsStartWith : List Char → List Char → Bool
  | _, [] => true
  | [], _ :: _ => false
  | c :: s, d :: p => c == d && charsStartWith s p

/-- Model of JavaScript `String.prototype.startsWith`. -/
def strStartsWith (s pre : String) : Bool := charsStartWith s.data pre.data

/-- Model of the JavaScript idiom `x || d` for string attributes: the
default is used when the attribute is absent or the empty string (both are
falsy in JavaScript). -/
def jsOr (o : Option String) (d : String) : String :=
  match o with
  | none => d
  | some v => if v == "" then d else v

/-- A JavaScript number as produced by `parseFloat`: NaN, an infinity, or a
finite value (modelled as a rational). -/
inductive JSNum where
  | nan
  | posInf
  | negInf
  | num (q : ℚ)
deriving DecidableEq

/-- JavaScript truthiness of a number: `NaN` and `0` are falsy, everything
else (including infinities) is truthy. -/
def JSNum.isTruthy : JSNum → Bool
  | JSNum.nan => false
  | JSNum.num q => !(decide (q = 0))
  | _ => true

/-- The JavaScript comparison `x < 0`: false for NaN, true for negative
values and negative infinity. -/
def JSNum.ltZero : JSNum → Bool
  | JSNum.negInf => true
  | JSNum.num q => decide (q < 0)
  | _ => false

/-- The value check performed by the panel form handler: the code rejects
with `!x || x < 0`, so a value passes exactly when it is truthy and not
negative. -/
def valueValid (v : JSNum) : Bool := v.isTruthy && !v.ltZero

/-- A JavaScript number is strictly positive: a finite value above zero, or
positive infinity.  This is the exact acceptance domain of `valueValid`. -/
def strictlyPos (v : JSNum) : Prop :=
  (∃ q : ℚ, v = JSNum.num q ∧ 0 < q) ∨ v = JSNum.posInf

/-- A reading object as handled by the frontend (`api.js` /
`ha-metermate-panel.js`): the fields the panel reads plus the `meter_id`
tag that `getReadings` adds. -/
structure Reading where
  id : String
  value : ℚ
  timestamp : Int
  period_start : Option Int
  period_end : Option Int
  notes : Option String
  meter_id : String
deriving DecidableEq

/-- A Home Assistant entity state as read by `getMeters`: the current state
string and the attributes the code looks at. -/
structure EntityState where
  state : String
  friendly_name : Option String
  unit_of_measurement : Option String
  device_class : Option String
deriving DecidableEq

/-- An entity-registry entry as returned by `config/entity_registry/list`:
the fields `getMeters` looks at. -/
structure RegistryEntry where
  entity_id : String
  platform : String
deriving DecidableEq

/-- The Home Assistant environment visible to the frontend: the entity
registry, the state map, and the per-entity result of the
`metermate.get_readings` service call (`none` models a call that throws). -/
structure Hass where
  registry : List RegistryEntry
  states : String → Option EntityState
  readingsFor : String → Option (List Reading)

/-- The meter object built by `getMeters` in `api.js`. -/
structure Meter where
  entity_id : String
  name : String
  state : String
  unit : String
  device_class : String
deriving DecidableEq

/-- `getMeters` from `api.js` (entity-registry version): filter the registry
by `platform === 'metermate'`, map each id to its state (dropping ids with
no state), keep entities whose id starts with `sensor.`, and build meter
objects with `|| 'kWh'` and `|| 'energy'` attribute defaults.  The early
return on an empty id list is omitted as it coincides with the general
path. -/
def getMeters (h : Hass) : List Meter :=
  let ids := (h.registry.filter (fun e => e.platform == "metermate")).map RegistryEntry.entity_id
  let found := ids.filterMap (fun eid => (h.states eid).map (fun s => (eid, s)))
  let sensors := found.filter (fun p => strStartsWith p.1 ("sensor."))
  sensors.map (fun p =>
    { entity_id := p.1
      name := jsOr p.2.friendly_name p.1
      state := p.2.state
      unit := jsOr p.2.unit_of_measurement "kWh"
      device_class := jsOr p.2.device_class "energy" })

/-- The readings one meter contributes to the aggregate `getReadings` call:
the result of its `get_readings` service call with `meter_id` set to the
meter's entity id (`readings.forEach(r => r.meter_id = meter.entity_id)`),
or nothing when the call throws (the `catch` only logs a warning). -/
def meterContribution (h : Hass) (m : Meter) : List Reading :=
  match h.readingsFor m.entity_id with
  | none => []
  | some rs => rs.map (fun r => { r with meter_id := m.entity_id })

/-- `getReadings` from `api.js`: iterate over all meters, append each
meter's tagged readings to `allReadings`, skipping meters whose service
call throws. -/
def getReadings (h : Hass) : List Reading :=
  ((getMeters h).map (meterContribution h)).flatten

/-- The comparator `(a, b) => new Date(b.timestamp) - new Date(a.timestamp)`
used by the panel: `a` may precede `b` exactly when `b.timestamp ≤
a.timestamp`, i.e. the sort is by timestamp descending. -/
def byTimestampDesc (a b : Reading) : Bool := decide (b.timestamp ≤ a.timestamp)

/-- `_getFilteredReadings` from `ha-metermate-panel.js`: empty when no
meter is selected, otherwise the readings whose `meter_id` equals the
selected meter, sorted by timestamp descending. -/
def getFilteredReadings (selectedMeter : Option String) (readings : List Reading) : List Reading :=
  match selectedMeter with
  | none => []
  | some m => sortLe byTimestampDesc (readings.filter (fun r => r.meter_id == m))

/-- The two entry types of the add-reading dialog. -/
inductive EntryType where
  | meterReading
  | consumption
deriving DecidableEq

/-- The service calls `_handleAddReading` can issue. -/
inductive ServiceCall where
  | addMeterReading (entity : String) (value : JSNum) (ts : Int) (notes : String)
  | addConsumptionPeriod (entity : String) (value : JSNum) (ps pe : Int) (notes : String)
deriving DecidableEq

/-- The error alerts `_handleAddReading` can show before issuing a call. -/
inductive Alert where
  | noMeterSelected
  | invalidMeterReading
  | invalidConsumption
  | periodFieldsMissing
  | periodOrderInvalid
deriving DecidableEq

/-- The outcome of a form submission: an error alert (and no service call),
or exactly one add service call. -/
inductive AddOutcome where
  | rejected (a : Alert)
  | accepted (c : ServiceCall)
deriving DecidableEq

/-- The add-reading form data: parsed numeric fields as `JSNum`, the
datetime-local period fields as `Option Int` (`none` models the empty
string, which is falsy). The meter-reading datetime field is initialised by
the form and modelled as a valid instant. -/
structure AddReadingForm where
  entryType : EntryType
  meter_reading : JSNum
  reading_datetime : Int
  consumption : JSNum
  period_start : Option Int
  period_end : Option Int
  notes : String
deriving DecidableEq

/-- `_handleAddReading` from `ha-metermate-panel.js`: require a selected
meter; for a meter-reading entry reject when `!v || v < 0`, else call
`add_meter_reading`; for a consumption entry reject when `!v || v < 0`,
then when either period field is missing, then when
`new Date(period_start) >= new Date(period_end)`, else call
`add_consumption_period`.  A rejected submission shows an alert and, by
construction of `AddOutcome`, issues no service call. -/
def handleAddReading (selectedMeter : Option String) (f : AddReadingForm) : AddOutcome :=
  match selectedMeter with
  | none => AddOutcome.rejected Alert.noMeterSelected
  | some meter =>
    match f.entryType with
    | EntryType.meterReading =>
      if !f.meter_reading.isTruthy || f.meter_reading.ltZero then
        AddOutcome.rejected Alert.invalidMeterReading
      else
        AddOutcome.accepted (ServiceCall.addMeterReading meter f.meter_reading f.reading_datetime f.notes)
    | EntryType.consumption =>
      if !f.consumption.isTruthy || f.consumption.ltZero then
        AddOutcome.rejected Alert.invalidConsumption
      else
        match f.period_start, f.period_end with
        | none, _ => AddOutcome.rejected Alert.periodFieldsMissing
        | some _, none => AddOutcome.rejected Alert.periodFieldsMissing
        | some ps, some pe =>
          if ps < pe then
            AddOutcome.accepted (ServiceCall.addConsumptionPeriod meter f.consumption ps pe f.notes)
          else
            AddOutcome.rejected Alert.periodOrderInvalid

/-- Modelled from the spec: a validated interval reading as consumed by the
Conversion Engine (the backend `data_manager` is not in the repository
snapshot).  An interval reading is a consumption delta over
`[period_start, period_end)`; its anchor instant is `period_end`. -/
structure IntervalReading where
  value : ℚ
  period_start : Int
  period_end : Int
deriving DecidableEq

/-- Modelled from the spec: an engine output tuple `(timestamp,
cumulative_total)`. -/
structure StatPoint where
  timestamp : Int
  total : ℚ
deriving DecidableEq

/-- Modelled from the spec: the Conversion Engine accumulator over interval
readings.  For each reading the new cumulative total is the running total
plus the reading's value, attributed to `period_end`, and the running total
is updated to the new total. -/
def convertIntervalsAux (running : ℚ) : List IntervalReading → List StatPoint
  | [] => []
  | r :: rs =>
    StatPoint.mk r.period_end (running + r.value) :: convertIntervalsAux (running + r.value) rs

/-- Modelled from the spec: the Conversion Engine on an ordered sequence of
validated interval readings, with the running total seeded at
`initial_offset`.  (The point-reading policy for non-increasing values is
explicitly left open by the spec and is not modelled here.) -/
def convertIntervals (offset : ℚ) (rs : List IntervalReading) : List StatPoint :=
  convertIntervalsAux offset rs

/-- The ascending anchor-instant order on interval readings (anchor of an
interval reading is its `period_end`). -/
def byAnchorAsc (a b : IntervalReading) : Bool := decide (a.period_end ≤ b.period_end)

/-- Modelled from the spec: the full engine run for a meter, step 1 of the
algorithm (sort by anchor instant ascending) followed by the accumulation. -/
def engineSeries (offset : ℚ) (readings : List IntervalReading) : List StatPoint :=
  convertIntervals offset (sortLe byAnchorAsc readings)

/-- Modelled from the spec: the state of the external statistics store, as a
map from statistic id to the currently published series. -/
def PublishedSeries : Type := String → List StatPoint

/-- Modelled from the spec: `replaceSeries(statistic_id, [StatisticPoint])`
of the Statistics Publisher Adapter — it replaces (does not append to) any
previously published series for that statistic id. -/
def replaceSeries (pub : PublishedSeries) (sid : String) (pts : List StatPoint) : PublishedSeries :=
  fun s => if s == sid then pts else pub s

/-- Modelled from the spec: the History Rebuilder `rebuild(meter_id)` — it
fetches all current readings of the meter, runs the Conversion Engine on
the complete set, and instructs the publisher to replace the previously
published series with the complete new point list. -/
def rebuildHistory (offset : ℚ) (readings : List IntervalReading) (sid : String)
    (pub : PublishedSeries) : PublishedSeries :=
  replaceSeries pub sid (engineSeries offset readings)

/-- Modelled from the spec: the two reading kinds of the data model. -/
inductive RKind where
  | point
  | interval
deriving DecidableEq

/-- Modelled from the spec: a candidate reading input submitted to
`addReading` / `bulkImport` before validation. -/
structure ReadingInput where
  kind : RKind
  value : ℚ
  timestamp : Option Int
  period_start : Option Int
  period_end : Option Int
  notes : Option String
deriving DecidableEq

/-- Modelled from the spec: a normalized Reading record as kept by the
Reading Store. -/
structure StoredReading where
  id : String
  meter_id : String
  kind : RKind
  value : ℚ
  timestamp : Option Int
  period_start : Option Int
  period_end : Option Int
  notes : Option String
  created_at : Int
deriving DecidableEq

/-- Modelled from the spec: the anchor instant of a stored reading — a
point's `timestamp`, an interval's `period_end`.  Store records are always
normalized, so the kind-relevant field is present and the fallback values
are never reached. -/
def StoredReading.anchor (r : StoredReading) : Int :=
  match r.kind with
  | RKind.point => r.timestamp.getD r.created_at
  | RKind.interval => r.period_end.getD 0

/-- Modelled from the spec: the validation-error taxonomy used by the
Validation Layer. -/
inductive VErr where
  | invalidValue
  | invalidPeriod
  | duplicateAnchor
deriving DecidableEq

/-- Modelled from the spec: check 2 of the Validation Layer — for an
interval reading, `period_start` and `period_end` must both be present with
`period_start < period_end`. -/
def periodValid (inp : ReadingInput) : Bool :=
  match inp.period_start, inp.period_end with
  | some ps, some pe => decide (ps < pe)
  | _, _ => false

/-- Modelled from the spec: the anchor instant of a candidate input — a
point's timestamp defaulting to the current time when omitted (check 3), an
interval's `period_end`. -/
def inputAnchor (now : Int) (inp : ReadingInput) : Int :=
  match inp.kind with
  | RKind.point => inp.timestamp.getD now
  | RKind.interval => inp.period_end.getD 0

/-- Modelled from the spec: normalization of an accepted input into a
Reading record — kind-relevant anchor fields kept (a point timestamp
defaults to the current time), other fields preserved, with a fresh id and
the audit timestamp. -/
def normalizeReading (now : Int) (newId : String) (meter : String) (inp : ReadingInput) :
    StoredReading :=
  { id := newId
    meter_id := meter
    kind := inp.kind
    value := inp.value
    timestamp :=
      match inp.kind with
      | RKind.point => some (inp.timestamp.getD now)
      | RKind.interval => none
    period_start :=
      match inp.kind with
      | RKind.point => none
      | RKind.interval => inp.period_start
    period_end :=
      match inp.kind with
      | RKind.point => none
      | RKind.interval => inp.period_end
    notes := inp.notes
    created_at := now }

/-- Modelled from the spec: the Validation Layer checks in order — value a
finite number that is not negative (`InvalidValue`), interval period well
formed (`InvalidPeriod`), anchor-instant uniqueness against the existing
readings of the same meter (`DuplicateAnchor`).  Returns the rejection
reason, or `none` for an accepted input. -/
def validateOnly (now : Int) (existing : List StoredReading) (meter : String)
    (inp : ReadingInput) : Option VErr :=
  if inp.value < 0 then some VErr.invalidValue
  else if inp.kind == RKind.interval && !(periodValid inp) then some VErr.invalidPeriod
  else if existing.any (fun ex => ex.meter_id == meter && ex.anchor == inputAnchor now inp) then
    some VErr.duplicateAnchor
  else none

/-- Modelled from the spec: validation returning the accepted, normalized
Reading or a rejection reason. -/
def validateReading (now : Int) (newId : String) (existing : List StoredReading)
    (meter : String) (inp : ReadingInput) : Except VErr StoredReading :=
  match validateOnly now existing meter inp with
  | some e => Except.error e
  | none => Except.ok (normalizeReading now newId meter inp)

/-- Modelled from the spec: `addReading` — validate against the current
store contents; on success append the normalized reading, on rejection
leave the store unchanged. -/
def storeAddReading (now : Int) (newId : String) (st : List StoredReading) (meter : String)
    (inp : ReadingInput) : Except VErr StoredReading × List StoredReading :=
  match validateReading now newId st meter inp with
  | Except.error e => (Except.error e, st)
  | Except.ok r => (Except.ok r, st ++ [r])

/-- The ascending anchor-instant order on stored readings. -/
def byAnchorAscStored (a b : StoredReading) : Bool := decide (a.anchor ≤ b.anchor)

/-- Modelled from the spec: `getReadings(meter_id)` of the Reading Store —
the meter's readings ordered by anchor instant ascending. -/
def storeGetReadings (st : List StoredReading) (meter : String) : List StoredReading :=
  sortLe byAnchorAscStored (st.filter (fun r => r.meter_id == meter))

/-- Modelled from the spec: the result of `bulkImport` — the accepted
inputs and the rejected inputs paired with their per-item reasons. -/
structure BulkResult where
  accepted : List ReadingInput
  rejected : List (ReadingInput × VErr)
deriving DecidableEq

/-- Modelled from the spec: `bulkImport(meter_id, [ReadingInput])` —
each item is validated on its own against the existing readings, and the
caller receives the per-item outcomes split into accepted and rejected. -/
def bulkImport (now : Int) (st : List StoredReading) (meter : String)
    (items : List ReadingInput) : BulkResult :=
  { accepted := items.filter (fun i => (validateOnly now st meter i).isNone)
    rejected := items.filterMap (fun i => (validateOnly now st meter i).map (fun e => (i, e))) }

/-- Sample raw reading (as returned by the backend service, before the
`meter_id` tag is applied) with timestamp 1. -/
def rRaw1 : Reading :=
  { id := "r1", value := 10, timestamp := 1, period_start := none, period_end := none
    notes := none, meter_id := "" }

/-- Sample raw reading with timestamp 2. -/
def rRaw2 : Reading :=
  { id := "r2", value := 20, timestamp := 2, period_start := none, period_end := none
    notes := none, meter_id := "" }

/-- Sample entity state without unit or device-class attributes. -/
def stateA : EntityState :=
  { state := "42", friendly_name := none, unit_of_measurement := none, device_class := none }

/-- Sample Home Assistant environment: one metermate sensor whose
`get_readings` call returns two readings (timestamps 1 and 2, in ascending
order). -/
def hassA : Hass :=
  { registry := [{ entity_id := "sensor.m", platform := "metermate" }]
    states := fun eid => if eid == "sensor.m" then some stateA else none
    readingsFor := fun eid => if eid == "sensor.m" then some [rRaw1, rRaw2] else none }

/-- The meter object `getMeters hassA` produces. -/
def meterA : Meter :=
  { entity_id := "sensor.m", name := "sensor.m", state := "42", unit := "kWh"
    device_class := "energy" }

/-- Sample form: a meter-reading entry with value 0 (a finite value that is
not negative, yet falsy in JavaScript). -/
def formZero : AddReadingForm :=
  { entryType := EntryType.meterReading, meter_reading := JSNum.num 0, reading_datetime := 0
    consumption := JSNum.nan, period_start := none, period_end := none, notes := "" }

/-- Sample form: a meter-reading entry with value 7. -/
def formPos : AddReadingForm :=
  { entryType := EntryType.meterReading, meter_reading := JSNum.num 7, reading_datetime := 0
    consumption := JSNum.nan, period_start := none, period_end := none, notes := "" }

/-- Sample form: a consumption entry with value 5 over the period [0, 10]. -/
def formCons : AddReadingForm :=
  { entryType := EntryType.consumption, meter_reading := JSNum.nan, reading_datetime := 0
    consumption := JSNum.num 5, period_start := some 0, period_end := some 10, notes := "" }

/-- Sample interval reading: value 100 ending at instant 1. -/
def ivA : IntervalReading := { value := 100, period_start := 0, period_end := 1 }

/-- Sample interval reading: value 50 ending at instant 2. -/
def ivB : IntervalReading := { value := 50, period_start := 1, period_end := 2 }

/-- Sample store input: a point reading of value 7 at instant 5. -/
def inpP : ReadingInput :=
  { kind := RKind.point, value := 7, timestamp := some 5, period_start := none
    period_end := none, notes := some "manual" }

/-- The normalized store record for `inpP` added at time 0 with id `id1`. -/
def rP : StoredReading := normalizeReading 0 "id1" "m" inpP

/-- Sample store input: a point reading of value 3 at the same instant 5
(same anchor as `rP`). -/
def inpDup : ReadingInput :=
  { kind := RKind.point, value := 3, timestamp := some 5, period_start := none
    period_end := none, notes := none }

/-- Sample store input: an invalid point reading with a negative value. -/
def inpNeg : ReadingInput :=
  { kind := RKind.point, value := -1, timestamp := some 9, period_start := none
    period_end := none, notes := none }

/-- Inserting an element is a permutation of consing it. -/
theorem perm_insertLe (le : α → α → Bool) (a : α) (l : List α) :
    List.Perm (insertLe le a l) (a :: l) := by
  induction l with
  | nil => rfl
  | cons b l ih =>
    simp only [insertLe]
    split
    · rfl
    · exact (ih.cons b).trans (List.Perm.swap a b l)

/-- The insertion sort permutes its input. -/
theorem perm_sortLe (le : α → α → Bool) (l : List α) : List.Perm (sortLe le l) l := by
  induction l with
  | nil => rfl
  | cons a l ih => exact (perm_insertLe le a (sortLe le l)).trans (ih.cons a)

/-- Membership is preserved by the insertion sort. -/
theorem mem_sortLe (le : α → α → Bool) (a : α) (l : List α) :
    a ∈ sortLe le l ↔ a ∈ l :=
  (perm_sortLe le l).mem_iff

/-- Inserting into a list sorted by a total transitive comparator keeps it
sorted. -/
theorem pairwise_insertLe (le : α → α → Bool)
    (htotal : ∀ a b, le a b || le b a)
    (htrans : ∀ a b c, le a b = true → le b c = true → le a c = true)
    (a : α) (l : List α) (hl : l.Pairwise (fun x y => le x y = true)) :
    (insertLe le a l).Pairwise (fun x y => le x y = true) := by
  induction l with
  | nil => simp [insertLe]
  | cons b l ih =>
    rcases List.pairwise_cons.mp hl with ⟨hb, hl2⟩
    simp only [insertLe]
    split
    · rename_i hab
      refine List.pairwise_cons.mpr ⟨?_, hl⟩
      intro x hx
      rcases List.mem_cons.mp hx with rfl | hx2
      · exact hab
      · exact htrans a b x hab (hb x hx2)
    · rename_i hab
      have hba : le b a = true := by
        have := htotal a b
        simp only [Bool.or_eq_true] at this
        rcases this with h | h
        · exact absurd h hab
        · exact h
      refine List.pairwise_cons.mpr ⟨?_, ih hl2⟩
      intro x hx
      have hx2 : x = a ∨ x ∈ l := by
        have := (perm_insertLe le a l).mem_iff.mp hx
        simpa using this
      rcases hx2 with rfl | hx2
      · exact hba
      · exact hb x hx2

/-- The insertion sort by a total transitive comparator produces a sorted
list. -/
theorem pairwise_sortLe (le : α → α → Bool)
    (htotal : ∀ a b, le a b || le b a)
    (htrans : ∀ a b c, le a b = true → le b c = true → le a c = true)
    (l : List α) : (sortLe le l).Pairwise (fun x y => le x y = true) := by
  induction l with
  | nil => simp [sortLe]
  | cons a l ih => exact pairwise_insertLe le htotal htrans a (sortLe le l) ih

/-- A JavaScript string default never yields the empty string when the
default itself is nonempty. -/
theorem jsOr_ne_empty (o : Option String) (d : String) (hd : d ≠ "") :
    jsOr o d ≠ "" := by
  cases o with
  | none => simpa [jsOr] using hd
  | some v =>
    simp only [jsOr]
    split
    · exact hd
    · rename_i hv
      intro hc
      subst hc
      simp at hv

/-- When the attribute is absent or empty the JavaScript default wins. -/
theorem jsOr_default (o : Option String) (d : String)
    (h : o = none ∨ o = some "") : jsOr o d = d := by
  rcases h with rfl | rfl
  · rfl
  · rfl

/-- The boolean value check agrees with the strict-positivity predicate. -/
theorem valueValid_iff_strictlyPos (v : JSNum) :
    valueValid v = true ↔ strictlyPos v := by
  cases v with
  | nan => simp [valueValid, JSNum.isTruthy, JSNum.ltZero, strictlyPos]
  | posInf => simp [valueValid, JSNum.isTruthy, JSNum.ltZero, strictlyPos]
  | negInf => simp [valueValid, JSNum.isTruthy, JSNum.ltZero, strictlyPos]
  | num q =>
    simp only [valueValid, JSNum.isTruthy, JSNum.ltZero, strictlyPos, Bool.and_eq_true,
      Bool.not_eq_true']
    constructor
    · rintro ⟨h1, h2⟩
      refine Or.inl ⟨q, rfl, ?_⟩
      have hq0 : ¬ q = 0 := by simpa using h1
      have hqneg : ¬ q < 0 := by simpa using h2
      rcases lt_trichotomy q 0 with h | h | h
      · exact absurd h hqneg
      · exact absurd h hq0
      · exact h
    · rintro (⟨q2, hq, hpos⟩ | h)
      · cases hq
        constructor
        · simpa using ne_of_gt hpos
        · simpa using not_lt_of_gt hpos
      · cases h

/-- The rejection condition written in the source, `!v || v < 0`, is the
negation of the value check. -/
theorem reject_cond_eq_not_valueValid (v : JSNum) :
    (!v.isTruthy || v.ltZero) = !(valueValid v) := by
  cases hv : v.isTruthy <;> cases hl : v.ltZero <;> simp [valueValid, hv, hl]

/-- The accumulator output has one point per reading. -/
theorem convertIntervalsAux_length (rs : List IntervalReading) :
    ∀ running : ℚ, (convertIntervalsAux running rs).length = rs.length := by
  induction rs with
  | nil => intro running; rfl
  | cons a as ih => intro running; simp [convertIntervalsAux, ih]

/-- Index-wise description of the accumulator: the point at index `i` is
anchored at that reading's `period_end` and its total is the running total
before the reading plus the reading's value. -/
theorem convertIntervalsAux_getElem (rs : List IntervalReading) :
    ∀ (running : ℚ) (i : Nat) (r : IntervalReading),
      rs[i]? = some r →
      (convertIntervalsAux running rs)[i]? =
        some (StatPoint.mk r.period_end
          ((running + ((rs.take i).map IntervalReading.value).sum) + r.value)) := by
  induction rs with
  | nil =>
    intro running i r hr
    simp at hr
  | cons a as ih =>
    intro running i r hr
    cases i with
    | zero =>
      simp only [List.getElem?_cons_zero, Option.some.injEq] at hr
      subst hr
      simp [convertIntervalsAux]
    | succ i =>
      simp only [List.getElem?_cons_succ] at hr
      simp only [convertIntervalsAux, List.getElem?_cons_succ]
      rw [ih (running + a.value) i r hr]
      simp only [List.take_succ_cons, List.map_cons, List.sum_cons, Option.some.injEq,
        StatPoint.mk.injEq]
      exact ⟨trivial, by ring⟩

/-- C1: on an ordered sequence of validated interval readings the engine
emits one statistic point per reading; the point of reading `i` carries the
previous running total (seeded at `initial_offset`) plus the reading's
value, attributed to the reading's `period_end`; in particular with offset
0 and values 100 then 50 at period ends `T1 < T2` the output is
`[(T1, 100), (T2, 150)]`. -/
theorem C1_interval_accumulation :
    (∀ (offset : ℚ) (rs : List IntervalReading),
      (convertIntervals offset rs).length = rs.length) ∧
    (∀ (offset : ℚ) (rs : List IntervalReading) (i : Nat) (r : IntervalReading),
      rs[i]? = some r →
      (convertIntervals offset rs)[i]? =
        some (StatPoint.mk r.period_end
          ((offset + ((rs.take i).map IntervalReading.value).sum) + r.value))) ∧
    (∀ (T1 T2 s1 s2 : Int), T1 < T2 →
      convertIntervals 0 [IntervalReading.mk 100 s1 T1, IntervalReading.mk 50 s2 T2] =
        [StatPoint.mk T1 100, StatPoint.mk T2 150]) := by
  refine ⟨?_, ?_, ?_⟩
  · intro offset rs
    exact convertIntervalsAux_length rs offset
  · intro offset rs i r hr
    exact convertIntervalsAux_getElem rs offset i r hr
  · intro T1 T2 s1 s2 _
    norm_num [convertIntervals, convertIntervalsAux]

/-- Witness for C1 at concrete inputs: the index description at index 1 of
`[ivA, ivB]`, and the concrete two-reading scenario with `T1 = 1 < 2 = T2`. -/
theorem C1_interval_accumulation_witness :
    (([ivA, ivB] : List IntervalReading)[1]? = some ivB ∧
      (convertIntervals 0 [ivA, ivB])[1]? =
        some (StatPoint.mk ivB.period_end
          ((0 + ((([ivA, ivB] : List IntervalReading).take 1).map IntervalReading.value).sum) +
            ivB.value))) ∧
    ((1 : Int) < 2 ∧
      convertIntervals 0 [IntervalReading.mk 100 0 1, IntervalReading.mk 50 1 2] =
        [StatPoint.mk 1 100, StatPoint.mk 2 150]) :=
  ⟨⟨rfl, C1_interval_accumulation.2.1 0 [ivA, ivB] 1 ivB rfl⟩,
    ⟨by decide, C1_interval_accumulation.2.2 1 2 0 1 (by decide)⟩⟩

/-- C6: rebuilding twice with no intervening store mutation leaves the
published state identical to rebuilding once, because each invocation
republishes (replaces) the complete series derived from the source
readings; the published series is the full engine output. -/
theorem C6_rebuild_idempotent (offset : ℚ) (readings : List IntervalReading) (sid : String)
    (pub : PublishedSeries) :
    rebuildHistory offset readings sid (rebuildHistory offset readings sid pub) =
      rebuildHistory offset readings sid pub ∧
    rebuildHistory offset readings sid pub sid = engineSeries offset readings := by
  constructor
  · funext s
    simp only [rebuildHistory, replaceSeries]
    split <;> rfl
  · simp [rebuildHistory, replaceSeries]

/-- General behaviour of the panel's filtered-readings list on any readings
list: sorted by timestamp descending, a permutation of the selected meter's
readings, and only readings of the selected meter. -/
theorem getFilteredReadings_spec (selected : String) (readings : List Reading) :
    List.Pairwise (fun a b : Reading => b.timestamp ≤ a.timestamp)
      (getFilteredReadings (some selected) readings) ∧
    List.Perm (getFilteredReadings (some selected) readings)
      (readings.filter (fun r => r.meter_id == selected)) ∧
    (∀ r ∈ getFilteredReadings (some selected) readings, r.meter_id = selected) := by
  have htotal : ∀ a b : Reading, byTimestampDesc a b || byTimestampDesc b a := by
    intro a b
    simp only [byTimestampDesc, Bool.or_eq_true, decide_eq_true_eq]
    omega
  have htrans : ∀ a b c : Reading,
      byTimestampDesc a b = true → byTimestampDesc b c = true → byTimestampDesc a c = true := by
    intro a b c
    simp only [byTimestampDesc, decide_eq_true_eq]
    omega
  refine ⟨?_, ?_, ?_⟩
  · have hp := pairwise_sortLe byTimestampDesc htotal htrans
      (readings.filter (fun r => r.meter_id == selected))
    exact hp.imp (fun hxy => by simpa [byTimestampDesc] using hxy)
  · exact perm_sortLe _ _
  · intro r hr
    have hr2 : r ∈ readings.filter (fun r => r.meter_id == selected) :=
      (mem_sortLe _ _ _).mp hr
    have := (List.mem_filter.mp hr2).2
    simpa using this

/-- C2 counterexample: with two readings at timestamps 1 and 2 (delivered
by the backend in ascending order), the list the panel shows is
`[timestamp 2, timestamp 1]`, which is not ordered by anchor instant
ascending. -/
theorem C2_counterexample :
    getFilteredReadings (some ("sensor.m")) (getReadings hassA) =
      [{ rRaw2 with meter_id := "sensor.m" }, { rRaw1 with meter_id := "sensor.m" }] ∧
    ¬ List.Pairwise (fun x y : Reading => x.timestamp ≤ y.timestamp)
      (getFilteredReadings (some ("sensor.m")) (getReadings hassA)) := by
  decide

/-- C2 (amended): the readings list the panel obtains for the selected
meter via `getReadings` is ordered by timestamp descending (newest first),
not ascending; it is a permutation of exactly the selected meter's
readings. -/
theorem C2_filtered_readings_descending (h : Hass) (selected : String) :
    List.Pairwise (fun a b : Reading => b.timestamp ≤ a.timestamp)
      (getFilteredReadings (some selected) (getReadings h)) ∧
    List.Perm (getFilteredReadings (some selected) (getReadings h))
      ((getReadings h).filter (fun r => r.meter_id == selected)) ∧
    (∀ r ∈ getFilteredReadings (some selected) (getReadings h), r.meter_id = selected) :=
  getFilteredReadings_spec selected (getReadings h)

/-- C3 counterexample: the value 0 is a finite number that is not negative,
yet the form handler rejects it (JavaScript `!0` is true), so the claimed
acceptance of every finite value that is at least 0 fails. -/
theorem C3_counterexample :
    (0 : ℚ) ≥ 0 ∧ formZero.meter_reading = JSNum.num 0 ∧
    handleAddReading (some ("sensor.m")) formZero =
      AddOutcome.rejected Alert.invalidMeterReading := by
  refine ⟨by norm_num, rfl, rfl⟩

/-- C3 (amended): with a meter selected, the form handler's value check
accepts a submission's value exactly when it is strictly positive (a finite
number above 0, or an overflow to positive infinity); 0, NaN and negative
values are rejected with the invalid-value alert of the respective entry
type, and a rejected submission issues no add service call
(`AddOutcome.rejected` carries no call by construction). -/
theorem C3_value_validation (m : String) (f : AddReadingForm) :
    (f.entryType = EntryType.meterReading →
      (((∃ c, handleAddReading (some m) f = AddOutcome.accepted c) ↔
          strictlyPos f.meter_reading) ∧
        (¬ strictlyPos f.meter_reading →
          handleAddReading (some m) f = AddOutcome.rejected Alert.invalidMeterReading))) ∧
    (f.entryType = EntryType.consumption →
      (((∃ c, handleAddReading (some m) f = AddOutcome.accepted c) →
          strictlyPos f.consumption) ∧
        (¬ strictlyPos f.consumption →
          handleAddReading (some m) f = AddOutcome.rejected Alert.invalidConsumption))) := by
  constructor
  · intro hk
    by_cases hv : valueValid f.meter_reading = true
    · have hc : (!f.meter_reading.isTruthy || f.meter_reading.ltZero) = false := by
        rw [reject_cond_eq_not_valueValid, hv]
        rfl
      have hacc : handleAddReading (some m) f =
          AddOutcome.accepted
            (ServiceCall.addMeterReading m f.meter_reading f.reading_datetime f.notes) := by
        simp [handleAddReading, hk, hc]
      constructor
      · constructor
        · intro _
          exact (valueValid_iff_strictlyPos _).mp hv
        · intro _
          exact ⟨_, hacc⟩
      · intro hns
        exact absurd ((valueValid_iff_strictlyPos _).mp hv) hns
    · have hv2 : valueValid f.meter_reading = false := by
        cases hvb : valueValid f.meter_reading
        · rfl
        · exact absurd hvb hv
      have hc : (!f.meter_reading.isTruthy || f.meter_reading.ltZero) = true := by
        rw [reject_cond_eq_not_valueValid, hv2]
        rfl
      have hrej : handleAddReading (some m) f =
          AddOutcome.rejected Alert.invalidMeterReading := by
        simp [handleAddReading, hk, hc]
      constructor
      · constructor
        · rintro ⟨c, hcc⟩
          rw [hrej] at hcc
          exact AddOutcome.noConfusion hcc
        · intro hs
          have := (valueValid_iff_strictlyPos f.meter_reading).mpr hs
          rw [hv2] at this
          exact Bool.noConfusion this
      · intro _
        exact hrej
  · intro hk
    by_cases hv : valueValid f.consumption = true
    · constructor
      · intro _
        exact (valueValid_iff_strictlyPos _).mp hv
      · intro hns
        exact absurd ((valueValid_iff_strictlyPos _).mp hv) hns
    · have hv2 : valueValid f.consumption = false := by
        cases hvb : valueValid f.consumption
        · rfl
        · exact absurd hvb hv
      have hc : (!f.consumption.isTruthy || f.consumption.ltZero) = true := by
        rw [reject_cond_eq_not_valueValid, hv2]
        rfl
      have hrej : handleAddReading (some m) f =
          AddOutcome.rejected Alert.invalidConsumption := by
        simp [handleAddReading, hk, hc]
      constructor
      · rintro ⟨c, hcc⟩
        rw [hrej] at hcc
        exact AddOutcome.noConfusion hcc
      · intro _
        exact hrej

/-- Witness for C3 at a concrete input: the strictly positive value 7 on a
meter-reading entry is accepted. -/
theorem C3_value_validation_witness :
    formPos.entryType = EntryType.meterReading ∧ strictlyPos formPos.meter_reading ∧
    (∃ c, handleAddReading (some ("sensor.m")) formPos = AddOutcome.accepted c) := by
  have hs : strictlyPos formPos.meter_reading := Or.inl ⟨7, rfl, by norm_num⟩
  exact ⟨rfl, hs, ((C3_value_validation ("sensor.m") formPos).1 rfl).1.mpr hs⟩

/-- C4: for a consumption-period submission with a valid value and a meter
selected, the handler issues the add service call exactly when both period
fields are present with `period_start < period_end`; a missing field or an
out-of-order (or equal) pair is rejected with the corresponding period
alert and no service call is made. -/
theorem C4_period_validation (m : String) (f : AddReadingForm)
    (hk : f.entryType = EntryType.consumption)
    (hv : valueValid f.consumption = true) :
    ((∃ c, handleAddReading (some m) f = AddOutcome.accepted c) ↔
      (∃ ps pe, f.period_start = some ps ∧ f.period_end = some pe ∧ ps < pe)) ∧
    ((f.period_start = none ∨ f.period_end = none) →
      handleAddReading (some m) f = AddOutcome.rejected Alert.periodFieldsMissing) ∧
    (∀ ps pe, f.period_start = some ps → f.period_end = some pe → pe ≤ ps →
      handleAddReading (some m) f = AddOutcome.rejected Alert.periodOrderInvalid) := by
  have hc : (!f.consumption.isTruthy || f.consumption.ltZero) = false := by
    rw [reject_cond_eq_not_valueValid, hv]
    rfl
  rcases hps : f.period_start with _ | ps <;> rcases hpe : f.period_end with _ | pe
  · have hrej : handleAddReading (some m) f = AddOutcome.rejected Alert.periodFieldsMissing := by
      simp [handleAddReading, hk, hc, hps, hpe]
    refine ⟨⟨?_, ?_⟩, fun _ => hrej, ?_⟩
    · rintro ⟨c, hcc⟩
      rw [hrej] at hcc
      exact AddOutcome.noConfusion hcc
    · rintro ⟨ps2, pe2, h1, _, _⟩
      exact Option.noConfusion h1
    · intro ps2 pe2 h1 _ _
      exact Option.noConfusion h1
  · have hrej : handleAddReading (some m) f = AddOutcome.rejected Alert.periodFieldsMissing := by
      simp [handleAddReading, hk, hc, hps, hpe]
    refine ⟨⟨?_, ?_⟩, fun _ => hrej, ?_⟩
    · rintro ⟨c, hcc⟩
      rw [hrej] at hcc
      exact AddOutcome.noConfusion hcc
    · rintro ⟨ps2, pe2, h1, _, _⟩
      exact Option.noConfusion h1
    · intro ps2 pe2 h1 _ _
      exact Option.noConfusion h1
  · have hrej : handleAddReading (some m) f = AddOutcome.rejected Alert.periodFieldsMissing := by
      simp [handleAddReading, hk, hc, hps, hpe]
    refine ⟨⟨?_, ?_⟩, fun _ => hrej, ?_⟩
    · rintro ⟨c, hcc⟩
      rw [hrej] at hcc
      exact AddOutcome.noConfusion hcc
    · rintro ⟨ps2, pe2, _, h2, _⟩
      exact Option.noConfusion h2
    · intro ps2 pe2 _ h2 _
      exact Option.noConfusion h2
  · by_cases hlt : ps < pe
    · have hacc : handleAddReading (some m) f =
          AddOutcome.accepted
            (ServiceCall.addConsumptionPeriod m f.consumption ps pe f.notes) := by
        simp [handleAddReading, hk, hc, hps, hpe, hlt]
      refine ⟨⟨?_, ?_⟩, ?_, ?_⟩
      · intro _
        exact ⟨ps, pe, rfl, rfl, hlt⟩
      · intro _
        exact ⟨_, hacc⟩
      · intro hn
        rcases hn with hn | hn
        · exact Option.noConfusion hn
        · exact Option.noConfusion hn
      · intro ps2 pe2 h1 h2 hle
        injection h1 with h1
        injection h2 with h2
        subst h1
        subst h2
        omega
    · have hrej : handleAddReading (some m) f = AddOutcome.rejected Alert.periodOrderInvalid := by
        simp [handleAddReading, hk, hc, hps, hpe, hlt]
      refine ⟨⟨?_, ?_⟩, ?_, fun _ _ _ _ _ => hrej⟩
      · rintro ⟨c, hcc⟩
        rw [hrej] at hcc
        exact AddOutcome.noConfusion hcc
      · rintro ⟨ps2, pe2, h1, h2, h3⟩
        injection h1 with h1
        injection h2 with h2
        subst h1
        subst h2
        exact absurd h3 hlt
      · intro hn
        rcases hn with hn | hn
        · exact Option.noConfusion hn
        · exact Option.noConfusion hn

/-- Witness for C4 at a concrete input: a consumption entry with value 5
over the period [0, 10] is accepted. -/
theorem C4_period_validation_witness :
    formCons.entryType = EntryType.consumption ∧ valueValid formCons.consumption = true ∧
    (∃ c, handleAddReading (some ("sensor.m")) formCons = AddOutcome.accepted c) := by
  refine ⟨rfl, by decide, ?_⟩
  exact ((C4_period_validation ("sensor.m") formCons rfl (by decide)).1).mpr
    ⟨0, 10, rfl, rfl, by decide⟩

/-- C5: batch operations have partial-success semantics.  For the aggregate
`getReadings`: whenever one meter's `get_readings` call succeeds, all of
its (tagged) readings appear in the aggregate result, regardless of other
meters' calls throwing (the per-meter `catch` skips only that meter).  For
the spec-modelled `bulkImport`: a single invalid item is rejected with its
own per-item reason and does not disturb the outcomes of the other items. -/
theorem C5_partial_failure (h : Hass) (m : Meter) (rs : List Reading)
    (hm : m ∈ getMeters h) (hrs : h.readingsFor m.entity_id = some rs) :
    (∀ r ∈ rs, ({ r with meter_id := m.entity_id } : Reading) ∈ getReadings h) ∧
    (∀ (now : Int) (st : List StoredReading) (meter : String)
        (pre : List ReadingInput) (bad : ReadingInput) (post : List ReadingInput) (e : VErr),
      validateOnly now st meter bad = some e →
      (bulkImport now st meter (pre ++ bad :: post)).accepted =
        (bulkImport now st meter pre).accepted ++ (bulkImport now st meter post).accepted ∧
      (bulkImport now st meter (pre ++ bad :: post)).rejected =
        (bulkImport now st meter pre).rejected ++
          (bad, e) :: (bulkImport now st meter post).rejected) := by
  constructor
  · intro r hr
    have h1 : ({ r with meter_id := m.entity_id } : Reading) ∈ meterContribution h m := by
      simp only [meterContribution, hrs]
      exact List.mem_map.mpr ⟨r, hr, rfl⟩
    have h2 : meterContribution h m ∈ (getMeters h).map (meterContribution h) :=
      List.mem_map.mpr ⟨m, hm, rfl⟩
    exact List.mem_flatten.mpr ⟨meterContribution h m, h2, h1⟩
  · intro now st meter pre bad post e hbad
    constructor
    · simp [bulkImport, List.filter_append, List.filter_cons, hbad]
    · simp [bulkImport, List.filterMap_append, List.filterMap_cons, hbad]

/-- Witness for C5 at concrete inputs: the successful meter's readings all
appear in the aggregate, and a bulk batch whose middle item has a negative
value rejects only that item. -/
theorem C5_partial_failure_witness :
    meterA ∈ getMeters hassA ∧
    hassA.readingsFor meterA.entity_id = some [rRaw1, rRaw2] ∧
    ({ rRaw1 with meter_id := meterA.entity_id } : Reading) ∈ getReadings hassA ∧
    validateOnly 0 [] ("m") inpNeg = some VErr.invalidValue ∧
    (bulkImport 0 [] ("m") ([inpP] ++ inpNeg :: [inpDup])).accepted =
      (bulkImport 0 [] ("m") [inpP]).accepted ++ (bulkImport 0 [] ("m") [inpDup]).accepted ∧
    (bulkImport 0 [] ("m") ([inpP] ++ inpNeg :: [inpDup])).rejected =
      (bulkImport 0 [] ("m") [inpP]).rejected ++
        (inpNeg, VErr.invalidValue) :: (bulkImport 0 [] ("m") [inpDup]).rejected := by
  have main := C5_partial_failure hassA meterA [rRaw1, rRaw2] (by decide) rfl
  have hbulk := main.2 0 [] ("m") [inpP] inpNeg [inpDup] VErr.invalidValue (by decide)
  exact ⟨by decide, rfl, main.1 rRaw1 (by decide), by decide, hbulk.1, hbulk.2⟩

/-- C7: for every accepted input, `addReading` followed by `getReadings`
for the same meter returns a list containing the added reading, with value,
kind, anchor fields (a point timestamp defaulting to the submission time
when omitted) and notes preserved. -/
theorem C7_round_trip (now : Int) (newId : String) (st : List StoredReading) (meter : String)
    (inp : ReadingInput) (r : StoredReading) (st2 : List StoredReading)
    (hadd : storeAddReading now newId st meter inp = (Except.ok r, st2)) :
    r ∈ storeGetReadings st2 meter ∧
    r.value = inp.value ∧ r.notes = inp.notes ∧ r.kind = inp.kind ∧ r.meter_id = meter ∧
    (inp.kind = RKind.point → r.timestamp = some (inp.timestamp.getD now)) ∧
    (inp.kind = RKind.interval →
      r.period_start = inp.period_start ∧ r.period_end = inp.period_end) := by
  have hval : r = normalizeReading now newId meter inp ∧ st2 = st ++ [r] := by
    unfold storeAddReading at hadd
    cases hv : validateReading now newId st meter inp with
    | error e =>
      rw [hv] at hadd
      simp at hadd
    | ok r2 =>
      rw [hv] at hadd
      simp only [Prod.mk.injEq, Except.ok.injEq] at hadd
      obtain ⟨hr, hst⟩ := hadd
      subst hr
      refine ⟨?_, hst.symm⟩
      unfold validateReading at hv
      cases hvo : validateOnly now st meter inp with
      | some e =>
        rw [hvo] at hv
        exact Except.noConfusion hv
      | none =>
        rw [hvo] at hv
        injection hv with hv
        exact hv.symm
  obtain ⟨hr, hst⟩ := hval
  subst hr
  subst hst
  refine ⟨?_, rfl, rfl, rfl, rfl, ?_, ?_⟩
  · apply (mem_sortLe _ _ _).mpr
    apply List.mem_filter.mpr
    constructor
    · exact List.mem_append.mpr (Or.inr (List.mem_singleton.mpr rfl))
    · simp [normalizeReading]
  · intro hk
    simp [normalizeReading, hk]
  · intro hk
    simp [normalizeReading, hk]

/-- Witness for C7 at a concrete input: adding a point reading of value 7
at instant 5 to an empty store and listing the meter's readings. -/
theorem C7_round_trip_witness :
    storeAddReading 0 ("id1") [] ("m") inpP = (Except.ok rP, [rP]) ∧
    rP ∈ storeGetReadings [rP] ("m") ∧ rP.value = inpP.value ∧ rP.notes = inpP.notes := by
  have happ := C7_round_trip 0 ("id1") [] ("m") inpP rP [rP] rfl
  exact ⟨rfl, happ.1, happ.2.1, happ.2.2.1⟩

/-- C8: an otherwise valid reading whose anchor instant exactly coincides
with an existing reading's anchor for the same meter is rejected with
`DuplicateAnchor`, and the store — including the existing reading — is left
unchanged (never overwritten). -/
theorem C8_duplicate_anchor (now : Int) (newId : String) (st : List StoredReading)
    (meter : String) (inp : ReadingInput) (ex : StoredReading)
    (hval : ¬ inp.value < 0)
    (hper : inp.kind = RKind.interval → periodValid inp = true)
    (hex : ex ∈ st) (hexm : ex.meter_id = meter) (hexa : ex.anchor = inputAnchor now inp) :
    storeAddReading now newId st meter inp = (Except.error VErr.duplicateAnchor, st) ∧
    ex ∈ (storeAddReading now newId st meter inp).2 := by
  have hvo : validateOnly now st meter inp = some VErr.duplicateAnchor := by
    unfold validateOnly
    rw [if_neg hval]
    have hp2 : (inp.kind == RKind.interval && !(periodValid inp)) = false := by
      cases hk : inp.kind with
      | point => simp
      | interval => simp [hper hk]
    rw [hp2]
    have hany : (st.any fun ex2 => ex2.meter_id == meter && ex2.anchor == inputAnchor now inp) =
        true := by
      apply List.any_eq_true.mpr
      exact ⟨ex, hex, by simp [hexm, hexa]⟩
    simp [hany]
  have hvr : validateReading now newId st meter inp = Except.error VErr.duplicateAnchor := by
    unfold validateReading
    rw [hvo]
  constructor
  · unfold storeAddReading
    rw [hvr]
  · unfold storeAddReading
    rw [hvr]
    exact hex

/-- Witness for C8 at a concrete input: adding a second point reading at
the already-used instant 5 of meter `m` is rejected and the store is
unchanged. -/
theorem C8_duplicate_anchor_witness :
    ¬ inpDup.value < 0 ∧ (inpDup.kind = RKind.interval → periodValid inpDup = true) ∧
    rP ∈ [rP] ∧ rP.meter_id = "m" ∧ rP.anchor = inputAnchor 0 inpDup ∧
    storeAddReading 0 ("id2") [rP] ("m") inpDup =
      (Except.error VErr.duplicateAnchor, [rP]) := by
  refine ⟨by decide, by decide, by decide, by decide, by decide, ?_⟩
  exact (C8_duplicate_anchor 0 ("id2") [rP] ("m") inpDup rP (by decide) (by decide)
    (by decide) (by decide) (by decide)).1

/-- Every reading a meter contributes carries that meter's entity id as its
`meter_id` tag. -/
theorem meterContribution_meter_id (h : Hass) (m : Meter) (r : Reading)
    (hr : r ∈ meterContribution h m) : r.meter_id = m.entity_id := by
  unfold meterContribution at hr
  cases hrf : h.readingsFor m.entity_id with
  | none =>
    rw [hrf] at hr
    cases hr
  | some rs =>
    rw [hrf] at hr
    obtain ⟨r0, _, rfl⟩ := List.mem_map.mp hr
    rfl

/-- Filtering a meter's own contribution by its entity id keeps everything. -/
theorem filter_meterContribution_self (h : Hass) (m : Meter) :
    (meterContribution h m).filter (fun r => r.meter_id == m.entity_id) =
      meterContribution h m := by
  apply List.filter_eq_self.mpr
  intro r hr
  simp [meterContribution_meter_id h m r hr]

/-- Filtering another meter's contribution by a different entity id drops
everything. -/
theorem filter_meterContribution_ne (h : Hass) (m2 : Meter) (eid : String)
    (hne : m2.entity_id ≠ eid) :
    (meterContribution h m2).filter (fun r => r.meter_id == eid) = [] := by
  apply List.filter_eq_nil_iff.mpr
  intro r hr
  have hrm := meterContribution_meter_id h m2 r hr
  simp [hrm]
  intro hc
  exact hne hc

/-- Filtering the concatenated contributions of a duplicate-free meter list
by one member's entity id recovers exactly that meter's contribution. -/
theorem filter_flatten_contribution (h : Hass) (m : Meter) :
    ∀ L : List Meter, (L.map Meter.entity_id).Nodup → m ∈ L →
      ((L.map (meterContribution h)).flatten).filter
          (fun r => r.meter_id == m.entity_id) =
        meterContribution h m := by
  intro L
  induction L with
  | nil =>
    intro _ hm
    cases hm
  | cons m2 L ih =>
    intro hnd hm
    have hnd0 : (m2.entity_id :: L.map Meter.entity_id).Nodup := by simpa using hnd
    have hne : m2.entity_id ∉ L.map Meter.entity_id := (List.nodup_cons.mp hnd0).1
    have hnd2 : (L.map Meter.entity_id).Nodup := (List.nodup_cons.mp hnd0).2
    simp only [List.map_cons, List.flatten_cons, List.filter_append]
    rcases List.mem_cons.mp hm with rfl | hm2
    · rw [filter_meterContribution_self]
      have hrest : ((L.map (meterContribution h)).flatten).filter
          (fun r => r.meter_id == m.entity_id) = [] := by
        apply List.filter_eq_nil_iff.mpr
        intro r hr
        obtain ⟨l, hl, hrl⟩ := List.mem_flatten.mp hr
        obtain ⟨m3, hm3, rfl⟩ := List.mem_map.mp hl
        have hrm := meterContribution_meter_id h m3 r hrl
        simp [hrm]
        intro hc
        exact hne (hc ▸ List.mem_map.mpr ⟨m3, hm3, rfl⟩)
      rw [hrest]
      simp
    · have hneq : m2.entity_id ≠ m.entity_id := by
        intro hc
        exact hne (hc ▸ List.mem_map.mpr ⟨m, hm2, rfl⟩)
      rw [filter_meterContribution_ne h m2 m.entity_id hneq, ih hnd2 hm2]
      simp

/-- C9: every reading in the aggregate `getReadings` result carries the
entity id of the meter whose service call produced it as its `meter_id`
field; consequently (given the registry's distinct entity ids) filtering
the aggregate list by a meter's entity id yields exactly that meter's
readings. -/
theorem C9_meter_id_tagging (h : Hass)
    (hnd : ((getMeters h).map Meter.entity_id).Nodup) :
    (∀ r ∈ getReadings h, ∃ m, m ∈ getMeters h ∧ r.meter_id = m.entity_id ∧
      r ∈ meterContribution h m) ∧
    (∀ m ∈ getMeters h,
      (getReadings h).filter (fun r => r.meter_id == m.entity_id) =
        meterContribution h m) := by
  constructor
  · intro r hr
    obtain ⟨l, hl, hrl⟩ := List.mem_flatten.mp hr
    obtain ⟨m, hm, rfl⟩ := List.mem_map.mp hl
    exact ⟨m, hm, meterContribution_meter_id h m r hrl, hrl⟩
  · intro m hm
    exact filter_flatten_contribution h m (getMeters h) hnd hm

/-- Witness for C9 at a concrete input: with one metermate sensor, the
aggregate list filtered by its entity id is exactly its tagged readings. -/
theorem C9_meter_id_tagging_witness :
    ((getMeters hassA).map Meter.entity_id).Nodup ∧ meterA ∈ getMeters hassA ∧
    (getReadings hassA).filter (fun r => r.meter_id == meterA.entity_id) =
      meterContribution hassA meterA := by
  refine ⟨by decide, by decide, ?_⟩
  exact (C9_meter_id_tagging hassA (by decide)).2 meterA (by decide)

/-- C10: every meter returned by `getMeters` comes from an entity-registry
entry with platform `metermate`, has an entity id starting with `sensor.`,
and carries nonempty `unit` and `device_class` fields, with the defaults
`kWh` and `energy` used when the underlying state lacks (or has an empty)
attribute. -/
theorem C10_getMeters_shape (h : Hass) (m : Meter) (hm : m ∈ getMeters h) :
    (∃ e, e ∈ h.registry ∧ e.platform = "metermate" ∧ e.entity_id = m.entity_id) ∧
    strStartsWith m.entity_id ("sensor.") = true ∧
    m.unit ≠ "" ∧ m.device_class ≠ "" ∧
    (∃ s, h.states m.entity_id = some s ∧
      ((s.unit_of_measurement = none ∨ s.unit_of_measurement = some ("")) →
        m.unit = "kWh") ∧
      ((s.device_class = none ∨ s.device_class = some ("")) →
        m.device_class = "energy")) := by
  unfold getMeters at hm
  simp only at hm
  obtain ⟨p, hpmem, rfl⟩ := List.mem_map.mp hm
  rw [List.mem_filter] at hpmem
  obtain ⟨hpfound, hpsensor⟩ := hpmem
  obtain ⟨eid, heid, hgp⟩ := List.mem_filterMap.mp hpfound
  obtain ⟨s, hs, hps⟩ := Option.map_eq_some'.mp hgp
  obtain ⟨e, hemem, heq⟩ := List.mem_map.mp heid
  rw [List.mem_filter] at hemem
  obtain ⟨hereg, hplat⟩ := hemem
  subst hps
  refine ⟨⟨e, hereg, by simpa using hplat, heq⟩, hpsensor, ?_, ?_, ⟨s, hs, ?_, ?_⟩⟩
  · exact jsOr_ne_empty _ _ (by decide)
  · exact jsOr_ne_empty _ _ (by decide)
  · intro hcase
    exact jsOr_default _ _ hcase
  · intro hcase
    exact jsOr_default _ _ hcase

/-- Witness for C10 at a concrete input: the single configured meter of the
sample environment. -/
theorem C10_getMeters_shape_witness :
    meterA ∈ getMeters hassA ∧ strStartsWith meterA.entity_id ("sensor.") = true ∧
    meterA.unit ≠ "" ∧ meterA.device_class ≠ "" := by
  have hc := C10_getMeters_shape hassA meterA (by decide)
  exact ⟨by decide, hc.2.1, hc.2.2.1, hc.2.2.2.1⟩

/-- Witness for the amended C2 statement at a concrete input: the tagged
reading with timestamp 2 appears in the panel list and carries the selected
meter's id. -/
theorem C2_filtered_readings_descending_witness :
    ({ rRaw2 with meter_id := "sensor.m" } : Reading) ∈
      getFilteredReadings (some ("sensor.m")) (getReadings hassA) ∧
    ({ rRaw2 with meter_id := "sensor.m" } : Reading).meter_id = "sensor.m" := by
  refine ⟨by decide, ?_⟩
  exact (C2_filtered_readings_descending hassA ("sensor.m")).2.2 _ (by decide)
